import Mathlib

/-!
Shallow embedding of the Print-SoC core (src/app/src-tauri/src): the job
lifecycle orchestrator (`print_service.rs`), the durable job registry
(`storage_service.rs`) and the persistent SSH session manager
(`ssh_service.rs`). Rust `HashMap<String, PrintJob>` is modelled as an
association list with unique keys; timestamps (`DateTime<Utc>`) as `Nat`;
the filesystem, SSH transport and PDF transform collaborators as explicit
environment records consulted by the operations. Remote side effects are
recorded as an explicit trace so that claims about "no remote operation"
are statable.
-/

namespace PrintSoC

/-- `PrintJobStatus` from types.rs. -/
inductive PrintJobStatus where
  | pending
  | uploading
  | queued
  | printing
  | completed
  | failed
  | cancelled
deriving DecidableEq, Repr

/-- `DuplexMode` from types.rs. -/
inductive DuplexMode where
  | simplex
  | duplexLongEdge
  | duplexShortEdge
deriving DecidableEq, Repr

/-- `Orientation` from types.rs. -/
inductive Orientation where
  | portrait
  | landscape
deriving DecidableEq, Repr

/-- `PageRange` from types.rs. -/
inductive PageRange where
  | all
  | range (start finish : Nat)
  | selection (pages : List Nat)
deriving DecidableEq, Repr

/-- `PaperSize` from types.rs. -/
inductive PaperSize where
  | a4
  | a3
deriving DecidableEq, Repr

/-- `PrintSettings` from types.rs. -/
structure PrintSettings where
  copies : Nat
  duplex : DuplexMode
  orientation : Orientation
  page_range : PageRange
  pages_per_sheet : Nat
  booklet : Bool
  paper_size : PaperSize
deriving DecidableEq, Repr

/-- `PrintJob` from types.rs (with the `lpq_job_id` field used throughout
print_service.rs). Timestamps are abstracted to `Nat`. -/
structure PrintJob where
  id : String
  name : String
  file_path : String
  printer : String
  settings : PrintSettings
  status : PrintJobStatus
  created_at : Nat
  updated_at : Nat
  error : Option String
  lpq_job_id : Option String
deriving DecidableEq, Repr

/-- `SSHAuthType` from types.rs. -/
inductive SSHAuthType where
  | password (password : String)
  | privateKey (key_path : String) (passphrase : Option String)
deriving DecidableEq, Repr

/-- `SSHConfig` from types.rs. -/
structure SSHConfig where
  host : String
  port : Nat
  username : String
  auth_type : SSHAuthType
deriving DecidableEq, Repr

/-- `ApiResponse<T>` from types.rs. -/
structure ApiResponse (α : Type) where
  success : Bool
  data : Option α
  error : Option String
deriving DecidableEq, Repr

/-- `ApiResponse::success`. -/
def ApiResponse.ok {α : Type} (d : α) : ApiResponse α :=
  ⟨true, some d, none⟩

/-- `ApiResponse::error`. -/
def ApiResponse.err {α : Type} (e : String) : ApiResponse α :=
  ⟨false, none, some e⟩

/-! ## The job registry: `HashMap<String, PrintJob>` as an association list -/

/-- In-memory registry: association list keyed by job id. -/
abbrev JobMap : Type := List (String × PrintJob)

/-- `HashMap::get` / `get_mut` lookup (first entry with the key). -/
def lookupJob : JobMap → String → Option PrintJob
  | [], _ => none
  | kv :: rest, k => if kv.1 = k then some kv.2 else lookupJob rest k

/-- In-place mutation through `get_mut`: replace the value stored at key
`k` (wherever it sits), leaving the rest untouched. -/
def setJob (m : JobMap) (k : String) (j : PrintJob) : JobMap :=
  m.map (fun kv => if kv.1 = k then (kv.1, j) else kv)

/-- `HashMap::insert`: overwrite the entry at the key if present,
otherwise add a new entry. -/
def insertJob (m : JobMap) (k : String) (j : PrintJob) : JobMap :=
  if (lookupJob m k).isSome then setJob m k j else m ++ [(k, j)]

/-- `HashMap::remove`. -/
def removeJob (m : JobMap) (k : String) : JobMap :=
  m.filter (fun kv => decide (kv.1 ≠ k))

/-- `HashMap::values` in iteration order of the model. -/
def valuesOf (m : JobMap) : List PrintJob :=
  m.map (·.2)

/-- Keys of the registry. -/
def keysOf (m : JobMap) : List String :=
  m.map (·.1)

/-- Registry well-formedness: keys are distinct (HashMap invariant) and
every record is stored under its own id (how print_service always inserts). -/
def WfMap (m : JobMap) : Prop :=
  (keysOf m).Nodup ∧ ∀ kv ∈ m, (kv.2).id = kv.1

instance (m : JobMap) : Decidable (WfMap m) := by
  unfold WfMap
  infer_instance

/-! ## Durable storage (storage_service.rs) -/

/-- Content of the durable history file, at the structure level produced
and consumed by serde_json in storage_service.rs: either a well-formed
serialized sequence of job records, or unparsable bytes. -/
inductive FileContent where
  | records (jobs : List PrintJob)
  | malformed
deriving DecidableEq, Repr

/-- `load_print_history` (storage_service.rs:48): a missing file yields an
empty map; unparsable content is a `PersistenceError`; otherwise the record
sequence is folded into a map keyed by each job's own id. -/
def load_print_history (file : Option FileContent) : Except String JobMap :=
  match file with
  | none => .ok []
  | some .malformed => .error "Failed to parse history JSON"
  | some (.records jobs) => .ok (jobs.foldl (fun m j => insertJob m j.id j) [])

/-- `save_print_history` (storage_service.rs:77): serializes the map's
values and atomically replaces the durable file. -/
def save_print_history (m : JobMap) : FileContent :=
  .records (valuesOf m)

/-- Initialization of the `PRINT_JOBS` global (print_service.rs:11): a
load failure degrades to an empty registry with a surfaced warning
(second component: whether the warning was printed). -/
def initPrintJobs (file : Option FileContent) : JobMap × Bool :=
  match load_print_history file with
  | .ok m => (m, false)
  | .error _ => ([], true)

/-! ## Print-service state and helpers (print_service.rs) -/

/-- State touched by print_service.rs: the `PRINT_JOBS` map, the
`HISTORY_DIRTY` flag, and the durable history file. -/
structure PrintState where
  jobs : JobMap
  dirty : Bool
  file : Option FileContent
deriving DecidableEq, Repr

/-- `mark_dirty` (print_service.rs:25). -/
def mark_dirty (s : PrintState) : PrintState :=
  { s with dirty := true }

/-- `save_if_dirty` (print_service.rs:30): writes the full record set to
the durable file and clears the flag, only when dirty. -/
def save_if_dirty (s : PrintState) : PrintState :=
  if s.dirty then
    { s with file := some (save_print_history s.jobs), dirty := false }
  else s

/-- Environment consulted by the print-service operations: local
filesystem, PDF transform collaborators, and the outcome of remote
commands executed over the persistent SSH session. -/
structure PrintEnv where
  fileExists : String → Bool
  nupResult : Except String Unit
  bookletResult : Except String Unit
  uploadResult : String → String → Except String Unit
  exec : String → Except String String
  now : Nat

/-- A remote side effect performed over the SSH session. -/
inductive RemoteOp where
  | upload (localPath remote : String)
  | command (cmd : String)
deriving DecidableEq, Repr

/-- `ssh_execute_command` (ssh_service.rs:135) as seen from
print_service: wraps the persistent-session execution result in an
`ApiResponse`, ignoring its config argument. -/
def sshExecCommand (env : PrintEnv) (cmd : String) : ApiResponse String :=
  match env.exec cmd with
  | .ok out => ApiResponse.ok out
  | .error e => ApiResponse.err ("SSH command failed: " ++ e ++ ". Please reconnect.")

/-- `ssh_upload_file` (ssh_service.rs:144) as seen from print_service. -/
def sshUploadFile (env : PrintEnv) (localPath remote : String) : ApiResponse String :=
  match env.uploadResult localPath remote with
  | .ok _ => ApiResponse.ok ("File uploaded to " ++ remote)
  | .error e => ApiResponse.err ("File upload failed: " ++ e ++ ". Please reconnect.")

/-- Rust's `Debug` rendering of an `Option<String>`, used in
`print_cancel_job`'s error message. -/
def debugOptString : Option String → String
  | some s => "Some(\x22" ++ s ++ "\x22)"
  | none => "None"

/-- `print_update_job_status` (print_service.rs:100): sets the requested
status and error on the stored record (whatever its current status),
bumps the timestamp, marks dirty and opportunistically persists. -/
def print_update_job_status (env : PrintEnv) (job_id : String)
    (status : PrintJobStatus) (error : Option String) (s : PrintState) :
    ApiResponse PrintJob × PrintState :=
  match lookupJob s.jobs job_id with
  | none => (ApiResponse.err "Job not found", s)
  | some job =>
    let j2 := { job with status := status, updated_at := env.now, error := error }
    let s1 := mark_dirty { s with jobs := setJob s.jobs job_id j2 }
    (ApiResponse.ok j2, save_if_dirty s1)

/-- `print_cancel_job` (print_service.rs:123): for a Queued/Printing job,
first runs the remote `lprm` command and aborts (leaving the record
untouched) if it fails; in every other case, and after a successful
remote cancel, the record is moved to Cancelled. The third component is
the trace of remote operations issued. -/
def print_cancel_job (env : PrintEnv) (job_id : String) (s : PrintState) :
    ApiResponse String × PrintState × List RemoteOp :=
  match lookupJob s.jobs job_id with
  | none => (ApiResponse.err "Job not found", s, [])
  | some job =>
    if job.status = .queued ∨ job.status = .printing then
      let command := "lprm -P " ++ job.printer ++ " " ++ job.name
      let result := sshExecCommand env command
      if ¬ result.success then
        (ApiResponse.err ("Failed to cancel job: " ++ debugOptString result.error),
         s, [.command command])
      else
        let s1 := mark_dirty { s with
          jobs := setJob s.jobs job_id { job with status := .cancelled, updated_at := env.now } }
        (ApiResponse.ok "Job cancelled successfully", save_if_dirty s1, [.command command])
    else
      let s1 := mark_dirty { s with
        jobs := setJob s.jobs job_id { job with status := .cancelled, updated_at := env.now } }
      (ApiResponse.ok "Job cancelled successfully", save_if_dirty s1, [])

/-! ## Submission (print_service.rs:169 and ssh_service.rs:306) -/

/-- `parse_lpr_job_id` (print_service.rs:307): extracts the token after
the first "request id is " up to a space, newline or parenthesis. -/
def parse_lpr_job_id (output : String) : Option String :=
  match output.splitOn "request id is " with
  | [] => none
  | [_] => none
  | _ :: rest =>
    let r := String.intercalate "request id is " rest
    let jid := (String.mk (r.toList.takeWhile
      (fun c => ¬ (c = ' ' ∨ c = '\n' ∨ c = '(')))).trim
    if jid.isEmpty then none else some jid

/-- Strip every trailing "-sx" from a (reversed) character list: Rust's
`trim_end_matches("-sx")` removes the suffix repeatedly. -/
def stripRevSx : List Char → List Char
  | 'x' :: 's' :: '-' :: rest => stripRevSx rest
  | l => l

/-- `str::trim_end_matches("-sx")`. -/
def trimEndSx (s : String) : String :=
  String.mk (stripRevSx s.toList.reverse).reverse

/-- The queue-name adjustment in `submit_print_job_ssh`
(ssh_service.rs:316): simplex queues carry a "-sx" suffix (unless the
name ends in "-nb"), duplex queues must not. -/
def actualPrinter (printer : String) (duplex : DuplexMode) : String :=
  match duplex with
  | .simplex =>
    if printer.endsWith "-sx" then printer
    else if printer.endsWith "-nb" then printer
    else printer ++ "-sx"
  | .duplexLongEdge | .duplexShortEdge =>
    if printer.endsWith "-sx" then trimEndSx printer else printer

/-- `submit_print_job_ssh` (ssh_service.rs:306): scales the uploaded PDF
on the server (failure tolerated), issues the `lpr` command, cleans up
the scaled file, and returns the `lpr` result together with the trace of
remote commands. -/
def submit_print_job_ssh (env : PrintEnv) (printer remote_file_path : String)
    (settings : PrintSettings) : Except String String × List RemoteOp :=
  let actual := actualPrinter printer settings.duplex
  let wh : Nat × Nat := match settings.paper_size with
    | .a4 => (595, 842)
    | .a3 => (842, 1191)
  let scaled := remote_file_path.replace ".pdf" "_scaled.pdf"
  let scaleCmd := "gs -sDEVICE=pdfwrite -dPDFFitPage -dFIXEDMEDIA -dDEVICEWIDTHPOINTS="
    ++ toString wh.1 ++ " -dDEVICEHEIGHTPOINTS=" ++ toString wh.2
    ++ " -dCompatibilityLevel=1.4 -dNOPAUSE -dBATCH -dQUIET -sOutputFile=\x22"
    ++ scaled ++ "\x22 \x22" ++ remote_file_path ++ "\x22 2>/dev/null || cp \x22"
    ++ remote_file_path ++ "\x22 \x22" ++ scaled ++ "\x22"
  let lprCmd := "lpr -P " ++ actual
    ++ (if settings.copies > 1 then " \x27-#\x27 " ++ toString settings.copies else "")
    ++ " \x22" ++ scaled ++ "\x22"
  let rmCmd := "rm -f \x22" ++ scaled ++ "\x22"
  let result := env.exec lprCmd
  (result, [.command scaleCmd, .command lprCmd, .command rmCmd])

/-- Outcome of `print_submit_job`: either a clean `ApiResponse`, or a
process panic (an `unwrap` on `None`). -/
inductive SubmitOutcome where
  | panic
  | resp (r : ApiResponse String)
deriving DecidableEq, Repr

/-- The tail of `print_submit_job` from the upload onwards
(print_service.rs:254). `interfere` is the concurrent mutation other
threads may apply to the registry while the lock is released around the
upload; the post-upload write-back at print_service.rs:263 re-looks the
job up with `.unwrap()`, which panics if the job has been removed. -/
def submitUpload (env : PrintEnv) (interfere : JobMap → JobMap)
    (job_id processed printer_name : String) (s : PrintState) (jobs1 : JobMap) :
    SubmitOutcome × PrintState × List RemoteOp :=
  let remote_path := "/tmp/" ++ job_id ++ ".pdf"
  let upload_result := sshUploadFile env processed remote_path
  let ops0 : List RemoteOp := [.upload processed remote_path]
  let jobs2 := interfere jobs1
  match lookupJob jobs2 job_id with
  | none => (.panic, { s with jobs := jobs2 }, ops0)
  | some jobU =>
    if ¬ upload_result.success then
      let error_msg := upload_result.error.getD "Unknown error"
      let jobs3 := setJob jobs2 job_id
        { jobU with status := .failed, error := some error_msg, updated_at := env.now }
      (.resp (ApiResponse.err error_msg), { s with jobs := jobs3 }, ops0)
    else
      let jobQ := { jobU with status := .queued, updated_at := env.now }
      let jobs3 := setJob jobs2 job_id jobQ
      let sub := submit_print_job_ssh env printer_name remote_path jobQ.settings
      match sub.1 with
      | .ok output =>
        let jobs4 := match lookupJob jobs3 job_id with
          | some jb =>
            let lpq := match parse_lpr_job_id output with
              | some l => some l
              | none => jb.lpq_job_id
            setJob jobs3 job_id
              { jb with status := .printing, updated_at := env.now, lpq_job_id := lpq }
          | none => jobs3
        (.resp (ApiResponse.ok ("Print job submitted: " ++ output)),
         { s with jobs := jobs4 }, ops0 ++ sub.2)
      | .error e =>
        let jobs4 := match lookupJob jobs3 job_id with
          | some jb => setJob jobs3 job_id
              { jb with status := .failed, error := some e, updated_at := env.now }
          | none => jobs3
        (.resp (ApiResponse.err ("Failed to submit print job: " ++ e)),
         { s with jobs := jobs4 }, ops0 ++ sub.2)

/-- `print_submit_job` (print_service.rs:169): moves the job to
Uploading, verifies the source file, applies the n-up/booklet transform
if requested, then uploads and submits. Returns the outcome, the final
state and the trace of remote operations. Note that no branch of this
function touches the dirty flag or the durable file. -/
def print_submit_job (env : PrintEnv) (interfere : JobMap → JobMap)
    (job_id : String) (s : PrintState) :
    SubmitOutcome × PrintState × List RemoteOp :=
  match lookupJob s.jobs job_id with
  | none => (.resp (ApiResponse.err "Job not found"), s, [])
  | some job0 =>
    let job1 := { job0 with status := .uploading, updated_at := env.now }
    let jobs1 := setJob s.jobs job_id job1
    let file_path := job0.file_path
    if ¬ env.fileExists file_path then
      let errA := some ("Source PDF file not found: " ++ file_path)
      let jobs2 := setJob jobs1 job_id
        { job1 with status := .failed, error := errA, updated_at := env.now }
      (.resp (ApiResponse.err ("PDF file not found: " ++ file_path)),
       { s with jobs := jobs2 }, [])
    else if job0.settings.pages_per_sheet > 1 then
      match env.nupResult with
      | .error e =>
        let errA := some ("PDF n-up layout failed: " ++ e)
        let jobs2 := setJob jobs1 job_id
          { job1 with status := .failed, error := errA, updated_at := env.now }
        (.resp (ApiResponse.err ("Failed to create n-up layout: " ++ e)),
         { s with jobs := jobs2 }, [])
      | .ok _ =>
        submitUpload env interfere job_id ("/tmp/nup_" ++ job_id ++ ".pdf")
          job0.printer s jobs1
    else if job0.settings.booklet then
      match env.bookletResult with
      | .error e =>
        let errA := some ("Booklet creation failed: " ++ e)
        let jobs2 := setJob jobs1 job_id
          { job1 with status := .failed, error := errA, updated_at := env.now }
        (.resp (ApiResponse.err ("Failed to create booklet: " ++ e)),
         { s with jobs := jobs2 }, [])
      | .ok _ =>
        submitUpload env interfere job_id ("/tmp/booklet_" ++ job_id ++ ".pdf")
          job0.printer s jobs1
    else
      submitUpload env interfere job_id file_path job0.printer s jobs1

/-! ## Queue reconciliation (print_service.rs:390, ssh_service.rs:166) -/

/-- Substring test on character lists: `needle` occurs somewhere in the
list. -/
def infixOfList (needle : List Char) : List Char → Bool
  | [] => needle.isEmpty
  | c :: rest => needle.isPrefixOf (c :: rest) || infixOfList needle rest

/-- Rust `str::contains` (substring containment). -/
def strContains (hay needle : String) : Bool :=
  infixOfList needle.toList hay.toList

/-- Split a character list at every occurrence of the separator
(`str::lines` modulo the trailing empty segment, which the entry filter
discards anyway). -/
def splitOnChar (c : Char) : List Char → List (List Char)
  | [] => [[]]
  | x :: xs =>
    match splitOnChar c xs with
    | [] => [[x]]
    | h :: t => if x = c then [] :: h :: t else (x :: h) :: t

/-- `str::trim` on a character list. -/
def trimList (l : List Char) : List Char :=
  ((l.dropWhile Char.isWhitespace).reverse.dropWhile Char.isWhitespace).reverse

/-- `str::starts_with`. -/
def startsWithList (pre l : List Char) : Bool :=
  pre.isPrefixOf l

/-- `str::ends_with`. -/
def endsWithList (suf l : List Char) : Bool :=
  suf.reverse.isPrefixOf l.reverse

/-- The predicate at ssh_service.rs:184: a line qualifies as a queue
entry when, after trimming, it is nonempty, is not one of the
Printer/Queue/Rank headers, and its first whitespace-separated token
ends in an ordinal suffix. -/
def isEntryLine (line : List Char) : Bool :=
  let t := trimList line
  if t.isEmpty then false
  else if startsWithList "Printer:".toList t || startsWithList "Queue:".toList t
      || startsWithList "Rank".toList t then false
  else
    let w := (t.dropWhile Char.isWhitespace).takeWhile (fun c => ¬ c.isWhitespace)
    if w.isEmpty then false
    else endsWithList "st".toList w || endsWithList "nd".toList w
      || endsWithList "rd".toList w || endsWithList "th".toList w

/-- The lpq-output filter in `ssh_check_printer_queue`
(ssh_service.rs:182): keep only rank-prefixed entry lines, dropping
blanks and the Printer/Queue/Rank headers. -/
def parseLpqOutput (output : String) : List String :=
  ((splitOnChar '\n' output.toList).filter isEntryLine).map String.mk

/-- `ssh_check_printer_queue` (ssh_service.rs:166): runs `lpq -P` and
parses the entry lines. -/
def ssh_check_printer_queue (env : PrintEnv) (printer : String) :
    ApiResponse (List String) :=
  match env.exec ("lpq -P " ++ printer) with
  | .error e => ApiResponse.err ("Failed to check printer queue: " ++ e ++ ". Please reconnect.")
  | .ok out => ApiResponse.ok (parseLpqOutput out)

/-- `matches!(status, Printing | Queued)`. -/
def isActive : PrintJobStatus → Bool
  | .printing => true
  | .queued => true
  | _ => false

/-- The Completed transition applied by the reconciler. -/
def completeJob (now : Nat) (j : PrintJob) : PrintJob :=
  { j with status := .completed, updated_at := now }

/-- The active-jobs snapshot taken at print_service.rs:394. -/
def activeSnapshot (m : JobMap) : List (String × String × Option String) :=
  (valuesOf m).filterMap (fun j =>
    if isActive j.status then some (j.id, j.printer, j.lpq_job_id) else none)

/-- `HashMap::entry(printer).or_default().push(item)`: append the item to
the unique group with this printer, or open a new group. -/
def groupInsert :
    List (String × List (String × Option String)) → String → String × Option String →
    List (String × List (String × Option String))
  | [], p, it => [(p, [it])]
  | g :: gs, p, it =>
    if g.1 = p then (g.1, g.2 ++ [it]) :: gs else g :: groupInsert gs p it

/-- The grouping-by-printer loop at print_service.rs:407. -/
def groupByPrinter (l : List (String × String × Option String)) :
    List (String × List (String × Option String)) :=
  l.foldl (fun acc x => groupInsert acc x.2.1 (x.1, x.2.2)) []

/-- All job ids contained in a grouping. -/
def allIdsOf (gs : List (String × List (String × Option String))) : List String :=
  (gs.map (fun g => g.2.map (·.1))).flatten

/-- The joined queue output a reconciled job is checked against
(print_service.rs:417). -/
def queueOutputOf (env : PrintEnv) (p : String) : String :=
  String.intercalate "\n" (((ssh_check_printer_queue env p).data).getD [])

/-- Whether a job with this optional external identifier still counts as
present in the printer's queue (print_service.rs:421). -/
def stillInQueue (qo : String) (q : Option String) : Bool :=
  match q with
  | some t => strContains qo t
  | none => false

/-- One iteration of the inner per-job loop at print_service.rs:420:
decide whether the job is still in the queue and, if not, re-lock and
complete it (only if it is still present and still active). -/
def processItem (env : PrintEnv) (queueOutput : String)
    (st : JobMap × List String) (item : String × Option String) :
    JobMap × List String :=
  let inQ := match item.2 with
    | some t => strContains queueOutput t
    | none => false
  if inQ then st
  else match lookupJob st.1 item.1 with
    | some j =>
      if isActive j.status then
        (setJob st.1 item.1 (completeJob env.now j), st.2 ++ [item.1])
      else st
    | none => st

/-- One iteration of the per-printer loop at print_service.rs:413: poll
this printer's queue once and check every grouped job against the joined
output; a failed poll skips the whole group. -/
def processGroup (env : PrintEnv) (st : JobMap × List String)
    (g : String × List (String × Option String)) : JobMap × List String :=
  let r := ssh_check_printer_queue env g.1
  if r.success then
    let qo := String.intercalate "\n" (r.data.getD [])
    g.2.foldl (processItem env qo) st
  else st

/-- `print_check_active_jobs` (print_service.rs:390): snapshot the
Queued/Printing jobs, group them by printer, poll each printer once, and
complete every job that is no longer listed. Returns the ids completed
this call. -/
def print_check_active_jobs (env : PrintEnv) (s : PrintState) :
    ApiResponse (List String) × PrintState :=
  let active := activeSnapshot s.jobs
  if active.isEmpty then (ApiResponse.ok [], s)
  else
    let st := (groupByPrinter active).foldl (processGroup env) (s.jobs, [])
    (ApiResponse.ok st.2, { s with jobs := st.1 })

/-! ## Persistent SSH session manager (ssh_service.rs:388) -/

/-- `SSHConnectionManager` (ssh_service.rs:58): the single stored session
(abstracted to an opaque handle number), the stored config, and the
last-activity instant. -/
structure MgrState where
  session : Option Nat
  config : Option SSHConfig
  last_activity : Nat
deriving DecidableEq, Repr

/-- Environment for the session manager: the outcome of the keep-alive
probe on the current session, the outcome of a fresh
`create_ssh_session` attempt, and the behaviour of a command executed on
a live channel. -/
structure SSHEnv where
  keepaliveOk : Bool
  connectResult : Except String Nat
  execResult : String → Except String String
  uploadOk : String → Except String Unit
  localFileSize : String → Except String Nat
  now : Nat

/-- `check_session_health` (ssh_service.rs:425): probe the stored
session; on a dead probe, drop the session and hand back the stored
config for reconnection. -/
def check_session_health (env : SSHEnv) (m : MgrState) :
    Except String (Option SSHConfig) × MgrState :=
  match m.session with
  | none => (.error "No active SSH connection. Please connect first.", m)
  | some _ =>
    if env.keepaliveOk then
      (.ok none, { m with last_activity := env.now })
    else
      match m.config with
      | some c => (.ok (some c), { m with session := none })
      | none => (.error "Connection lost and no config available for reconnection", m)

/-- `ensure_session_valid` (ssh_service.rs:457): health check, then at
most one `create_ssh_session` attempt with the stored config. The third
component counts the connection attempts made. -/
def ensure_session_valid (env : SSHEnv) (m : MgrState) :
    Except String Unit × MgrState × Nat :=
  match check_session_health env m with
  | (.error e, m1) => (.error e, m1, 0)
  | (.ok none, m1) => (.ok (), m1, 0)
  | (.ok (some c), m1) =>
    match env.connectResult with
    | .ok h =>
      (.ok (), { m1 with session := some h, config := some c, last_activity := env.now }, 1)
    | .error e => (.error e, m1, 1)

/-- `with_session` + `execute_with_persistent_session`
(ssh_service.rs:479, 495): validate the session, then run the command on
it. Returns the result, the manager state, the number of reconnection
attempts, and the commands actually executed on a live channel. -/
def execute_with_persistent_session (env : SSHEnv) (command : String)
    (m : MgrState) : Except String String × MgrState × Nat × List String :=
  match ensure_session_valid env m with
  | (.error e, m1, n) => (.error e, m1, n, [])
  | (.ok _, m1, n) =>
    match m1.session with
    | none => (.error "No active SSH session", m1, n, [])
    | some _ => (env.execResult command, m1, n, [command])

/-- `upload_with_persistent_session` (ssh_service.rs:526): open the
local file, then stream it over a validated session. -/
def upload_with_persistent_session (env : SSHEnv) (local_path remote_path : String)
    (m : MgrState) : Except String Unit × MgrState × Nat :=
  match env.localFileSize local_path with
  | .error e => (.error e, m, 0)
  | .ok _ =>
    match ensure_session_valid env m with
    | (.error e, m1, n) => (.error e, m1, n)
    | (.ok _, m1, n) =>
      match m1.session with
      | none => (.error "No active SSH session", m1, n)
      | some _ =>
        match env.uploadOk remote_path with
        | .ok _ => (.ok (), m1, n)
        | .error e => (.error e, m1, n)

/-- `ssh_execute_command` (ssh_service.rs:135): the `_config` argument is
bound but never used; the command runs on the persistent session. -/
def ssh_execute_command (_config : SSHConfig) (command : String)
    (env : SSHEnv) (m : MgrState) : ApiResponse String × MgrState × Nat × List String :=
  match execute_with_persistent_session env command m with
  | (.ok out, m1, n, t) => (ApiResponse.ok out, m1, n, t)
  | (.error e, m1, n, t) =>
    (ApiResponse.err ("SSH command failed: " ++ e ++ ". Please reconnect."), m1, n, t)

/-- `ssh_upload_file` (ssh_service.rs:144): the `_config` argument is
bound but never used; the transfer runs on the persistent session. -/
def ssh_upload_file (_config : SSHConfig) (local_path remote_path : String)
    (env : SSHEnv) (m : MgrState) : ApiResponse String × MgrState × Nat :=
  match upload_with_persistent_session env local_path remote_path m with
  | (.ok _, m1, n) => (ApiResponse.ok ("File uploaded to " ++ remote_path), m1, n)
  | (.error e, m1, n) =>
    (ApiResponse.err ("File upload failed: " ++ e ++ ". Please reconnect."), m1, n)

/-! ## Concrete fixtures used to evaluate the operations -/

/-- Default settings: one copy, duplex, no layout transform. -/
def settingsPlain : PrintSettings :=
  { copies := 1, duplex := .duplexLongEdge, orientation := .portrait,
    page_range := .all, pages_per_sheet := 1, booklet := false, paper_size := .a4 }

/-- A freshly created job. -/
def jobPending : PrintJob :=
  { id := "j1", name := "doc", file_path := "/home/u/doc.pdf", printer := "psts",
    settings := settingsPlain, status := .pending, created_at := 0, updated_at := 0,
    error := none, lpq_job_id := none }

/-- A queued job with a recorded external queue identifier. -/
def jobQueued : PrintJob :=
  { jobPending with id := "jq", status := .queued, lpq_job_id := some "psts-42" }

/-- A printing job whose external identifier never parsed. -/
def jobPrinting : PrintJob :=
  { jobPending with id := "jr", status := .printing, lpq_job_id := none }

/-- A job already in the terminal state Completed. -/
def jobDone : PrintJob :=
  { jobPending with id := "j2", status := .completed }

/-- Environment where everything succeeds and `lpr` answers with a
parsable request id. -/
def envHappy : PrintEnv :=
  { fileExists := fun _ => true, nupResult := .ok (), bookletResult := .ok (),
    uploadResult := fun _ _ => .ok (),
    exec := fun _ => .ok "request id is psts-42 (1 file(s))", now := 5 }

/-- Environment where the source document is missing. -/
def envNoFile : PrintEnv :=
  { envHappy with fileExists := fun _ => false }

/-- Environment where every remote command fails. -/
def envExecFail : PrintEnv :=
  { envHappy with exec := fun _ => .error "boom" }

/-- Environment whose `lpq -P psts` listing contains the identifier
"psts-42". -/
def envQueueHit : PrintEnv :=
  { envHappy with exec := fun c => if c = "lpq -P psts" then .ok "Rank Owner Job Files\n1st u psts-42 f.pdf" else .error "x" }

/-- Environment whose `lpq -P psts` listing does not contain "psts-42". -/
def envQueueMiss : PrintEnv :=
  { envHappy with exec := fun c => if c = "lpq -P psts" then .ok "Rank Owner Job Files\n1st u 7 f.pdf" else .error "x" }

/-- Registry with a single pending job. -/
def stOne : PrintState :=
  { jobs := [("j1", jobPending)], dirty := false, file := none }

/-- Registry mixing active and inactive jobs. -/
def stMix : PrintState :=
  { jobs := [("jq", jobQueued), ("jr", jobPrinting), ("j1", jobPending)],
    dirty := false, file := none }

/-- Registry containing a terminal (Completed) job. -/
def stDone : PrintState :=
  { jobs := [("j2", jobDone)], dirty := false, file := none }

/-- Dirty registry used for the persistence round trip. -/
def stDirty : PrintState :=
  { jobs := [("jq", jobQueued), ("j2", jobDone)], dirty := true, file := none }

/-- A sample connection config. -/
def cfgA : SSHConfig :=
  { host := "stu.comp.nus.edu.sg", port := 22, username := "alice",
    auth_type := .password "pw" }

/-- A second, different connection config. -/
def cfgB : SSHConfig :=
  { host := "stf.comp.nus.edu.sg", port := 2200, username := "bob",
    auth_type := .privateKey "/home/b/.ssh/id" none }

/-- Manager holding a live session established with `cfgA`. -/
def mgrLive : MgrState :=
  { session := some 0, config := some cfgA, last_activity := 0 }

/-- SSH environment: the keep-alive probe fails, the reconnection attempt
succeeds, and commands then execute normally. -/
def sshEnvReconnectOk : SSHEnv :=
  { keepaliveOk := false, connectResult := .ok 1,
    execResult := fun c => .ok ("ran " ++ c), uploadOk := fun _ => .ok (),
    localFileSize := fun _ => .ok 10, now := 7 }

/-- SSH environment: the keep-alive probe fails and the reconnection
attempt also fails. -/
def sshEnvReconnectFail : SSHEnv :=
  { sshEnvReconnectOk with connectResult := .error "Connection timeout - no server reachable" }

/-! ## Registry lemmas -/

theorem lookupJob_nil (k : String) : lookupJob [] k = none := rfl

theorem lookupJob_cons (kv : String × PrintJob) (rest : JobMap) (k : String) :
    lookupJob (kv :: rest) k = if kv.1 = k then some kv.2 else lookupJob rest k := rfl

theorem setJob_cons (kv : String × PrintJob) (rest : JobMap) (k : String) (j' : PrintJob) :
    setJob (kv :: rest) k j' = (if kv.1 = k then (kv.1, j') else kv) :: setJob rest k j' := by
  simp only [setJob, List.map_cons]

theorem keysOf_cons (kv : String × PrintJob) (rest : JobMap) :
    keysOf (kv :: rest) = kv.1 :: keysOf rest := rfl

theorem lookupJob_setJob_self (m : JobMap) (k : String) (j' : PrintJob) :
    lookupJob (setJob m k j') k = (lookupJob m k).map (fun _ => j') := by
  induction m with
  | nil => rfl
  | cons kv rest ih =>
    rw [setJob_cons, lookupJob_cons, lookupJob_cons]
    by_cases h : kv.1 = k
    · simp [h]
    · simp only [if_neg h]
      exact ih

theorem lookupJob_setJob_ne (m : JobMap) (k k' : String) (j' : PrintJob)
    (h : k' ≠ k) : lookupJob (setJob m k j') k' = lookupJob m k' := by
  induction m with
  | nil => rfl
  | cons kv rest ih =>
    rw [setJob_cons, lookupJob_cons, lookupJob_cons]
    by_cases hk : kv.1 = k
    · have hne : kv.1 ≠ k' := fun e => h (e.symm.trans hk)
      rw [if_pos hk]
      simp only
      rw [if_neg hne, if_neg hne]
      exact ih
    · rw [if_neg hk]
      by_cases hk' : kv.1 = k'
      · rw [if_pos hk', if_pos hk']
      · rw [if_neg hk', if_neg hk']
        exact ih

theorem keysOf_setJob (m : JobMap) (k : String) (j' : PrintJob) :
    keysOf (setJob m k j') = keysOf m := by
  induction m with
  | nil => rfl
  | cons kv rest ih =>
    rw [setJob_cons, keysOf_cons, keysOf_cons]
    by_cases h : kv.1 = k
    · rw [if_pos h]
      exact congrArg (_ :: ·) ih
    · rw [if_neg h]
      exact congrArg (_ :: ·) ih

theorem lookupJob_mem {m : JobMap} {k : String} {j : PrintJob}
    (h : lookupJob m k = some j) : (k, j) ∈ m := by
  induction m with
  | nil => cases h
  | cons kv rest ih =>
    rw [lookupJob_cons] at h
    by_cases hk : kv.1 = k
    · rw [if_pos hk] at h
      have : kv = (k, j) := by
        cases h
        exact Prod.ext hk rfl
      rw [← this]
      exact List.mem_cons_self kv rest
    · rw [if_neg hk] at h
      exact List.mem_cons_of_mem _ (ih h)

theorem mem_lookupJob {m : JobMap} {k : String} {j : PrintJob}
    (hnd : (keysOf m).Nodup) (h : (k, j) ∈ m) : lookupJob m k = some j := by
  induction m with
  | nil => cases h
  | cons kv rest ih =>
    rw [keysOf_cons, List.nodup_cons] at hnd
    rw [lookupJob_cons]
    rcases List.mem_cons.mp h with h1 | h1
    · rw [← h1]
      simp
    · have hk : kv.1 ≠ k := by
        intro e
        exact hnd.1 (e ▸ List.mem_map.mpr ⟨(k, j), h1, rfl⟩)
      rw [if_neg hk]
      exact ih hnd.2 h1

theorem lookupJob_append_left {a : JobMap} (b : JobMap) {k : String} {j : PrintJob}
    (h : lookupJob a k = some j) : lookupJob (a ++ b) k = some j := by
  induction a with
  | nil => cases h
  | cons kv rest ih =>
    rw [lookupJob_cons] at h
    rw [List.cons_append, lookupJob_cons]
    by_cases hk : kv.1 = k
    · rwa [if_pos hk] at h ⊢
    · rw [if_neg hk] at h ⊢
      exact ih h

theorem lookupJob_append_right {a : JobMap} (b : JobMap) {k : String}
    (h : lookupJob a k = none) : lookupJob (a ++ b) k = lookupJob b k := by
  induction a with
  | nil => rfl
  | cons kv rest ih =>
    rw [lookupJob_cons] at h
    rw [List.cons_append, lookupJob_cons]
    by_cases hk : kv.1 = k
    · rw [if_pos hk] at h
      cases h
    · rw [if_neg hk] at h ⊢
      exact ih h

theorem jobs_save_if_dirty (s : PrintState) : (save_if_dirty s).jobs = s.jobs := by
  unfold save_if_dirty
  split <;> rfl

theorem jobs_mark_dirty (s : PrintState) : (mark_dirty s).jobs = s.jobs := rfl

/-! ## Claim theorems: startup, config-independence, submission -/

/-- C9: on startup, a missing durable file loads as an empty registry
without error, and a present-but-malformed file initializes the registry
to empty with a surfaced warning instead of a fatal error. -/
theorem load_degrades_gracefully :
    load_print_history none = Except.ok ([] : JobMap) ∧
    initPrintJobs (some FileContent.malformed) = ([], true) :=
  ⟨rfl, rfl⟩

/-- C10: the public remote-command and upload operations ignore the
connection config they receive: any two configs passed with the same
command (or paths) against the same manager state yield identical
behaviour. -/
theorem remote_ops_ignore_config (c1 c2 : SSHConfig)
    (command localPath remotePath : String) (env : SSHEnv) (m : MgrState) :
    ssh_execute_command c1 command env m = ssh_execute_command c2 command env m ∧
    ssh_upload_file c1 localPath remotePath env m = ssh_upload_file c2 localPath remotePath env m :=
  ⟨rfl, rfl⟩

/-- C3: contrary to the no-panic contract, `print_submit_job` run on a
job that is concurrently removed from the registry between its upload
step and its status write-back hits the `.unwrap()` at
print_service.rs:263 and panics instead of returning an error
envelope. -/
theorem submit_concurrent_removal_panics :
    (print_submit_job envHappy (fun m => removeJob m "j1") "j1" stOne).1 =
      SubmitOutcome.panic := by
  decide

/-- C2 counterexample: a submit run that performs the full
Pending→Uploading→Queued→Printing transition chain leaves the dirty flag
clear and the durable file untouched, so submit's transitions do not
mark the registry dirty nor trigger a persist. -/
theorem submit_no_dirty_cx :
    (lookupJob (print_submit_job envHappy (fun m => m) "j1" stOne).2.1.jobs "j1").map
        (·.status) = some .printing ∧
    (print_submit_job envHappy (fun m => m) "j1" stOne).2.1.dirty = false ∧
    (print_submit_job envHappy (fun m => m) "j1" stOne).2.1.file = none := by
  decide

/-- C2 amended: no status transition performed by the submit operation
marks the registry dirty or triggers a persist — submit leaves the dirty
flag and the durable file exactly as it found them, on every path. -/
theorem submit_preserves_dirty_file (env : PrintEnv) (interfere : JobMap → JobMap)
    (job_id : String) (s : PrintState) :
    (print_submit_job env interfere job_id s).2.1.dirty = s.dirty ∧
    (print_submit_job env interfere job_id s).2.1.file = s.file := by
  unfold print_submit_job submitUpload
  dsimp only
  repeat' split
  all_goals exact ⟨rfl, rfl⟩

/-- C4: submit on a job whose source document does not exist transitions
the job to Failed with an explanatory error message, returns an error
envelope, and performs no remote operation at all. -/
theorem submit_missing_file_no_remote (env : PrintEnv) (interfere : JobMap → JobMap)
    (job_id : String) (s : PrintState) (j : PrintJob)
    (hj : lookupJob s.jobs job_id = some j)
    (hf : env.fileExists j.file_path = false) :
    (print_submit_job env interfere job_id s).1 =
      .resp (ApiResponse.err ("PDF file not found: " ++ j.file_path)) ∧
    lookupJob (print_submit_job env interfere job_id s).2.1.jobs job_id =
      some { j with status := .failed, error := some ("Source PDF file not found: " ++ j.file_path), updated_at := env.now } ∧
    (print_submit_job env interfere job_id s).2.2 = [] := by
  simp only [print_submit_job, hj]
  rw [if_pos (by simp [hf])]
  refine ⟨rfl, ?_, rfl⟩
  simp [lookupJob_setJob_self, hj]

/-- Closed instance of `submit_missing_file_no_remote`. -/
theorem submit_missing_file_no_remote_witness :
    (print_submit_job envNoFile (fun m => m) "j1" stOne).1 =
      .resp (ApiResponse.err ("PDF file not found: " ++ jobPending.file_path)) ∧
    lookupJob (print_submit_job envNoFile (fun m => m) "j1" stOne).2.1.jobs "j1" =
      some { jobPending with status := .failed, error := some ("Source PDF file not found: " ++ jobPending.file_path), updated_at := envNoFile.now } ∧
    (print_submit_job envNoFile (fun m => m) "j1" stOne).2.2 = [] :=
  submit_missing_file_no_remote envNoFile (fun m => m) "j1" stOne jobPending
    (by decide) (by decide)

/-- C6: cancelling a Queued/Printing job issues the remote cancel
command first; if the command fails the call fails and the whole state
(record, timestamps, error, dirty flag, file) is left unchanged; only a
successful remote command moves the job to Cancelled. -/
theorem cancel_remote_first (env : PrintEnv) (s : PrintState) (job_id : String)
    (j : PrintJob) (hj : lookupJob s.jobs job_id = some j)
    (hact : j.status = .queued ∨ j.status = .printing) :
    (print_cancel_job env job_id s).2.2 =
      [RemoteOp.command ("lprm -P " ++ j.printer ++ " " ++ j.name)] ∧
    (∀ e, env.exec ("lprm -P " ++ j.printer ++ " " ++ j.name) = .error e →
      (print_cancel_job env job_id s).1.success = false ∧
      (print_cancel_job env job_id s).2.1 = s) ∧
    (∀ out, env.exec ("lprm -P " ++ j.printer ++ " " ++ j.name) = .ok out →
      (print_cancel_job env job_id s).1 = ApiResponse.ok "Job cancelled successfully" ∧
      lookupJob (print_cancel_job env job_id s).2.1.jobs job_id =
        some { j with status := .cancelled, updated_at := env.now }) := by
  simp only [print_cancel_job, hj]
  rw [if_pos hact]
  refine ⟨?_, ?_, ?_⟩
  · cases henv : env.exec ("lprm -P " ++ j.printer ++ " " ++ j.name) <;>
      simp [sshExecCommand, henv, ApiResponse.ok, ApiResponse.err]
  · intro e he
    simp [sshExecCommand, he, ApiResponse.err]
  · intro out ho
    simp only [sshExecCommand, ho]
    rw [if_neg (by simp [ApiResponse.ok])]
    constructor
    · rfl
    · rw [jobs_save_if_dirty, jobs_mark_dirty]
      simp [lookupJob_setJob_self, hj]

/-- Closed instance of `cancel_remote_first`, exercising both the
failing-command and the succeeding-command branch. -/
theorem cancel_remote_first_witness :
    ((print_cancel_job envExecFail "jq" stMix).1.success = false ∧
      (print_cancel_job envExecFail "jq" stMix).2.1 = stMix) ∧
    lookupJob (print_cancel_job envHappy "jq" stMix).2.1.jobs "jq" =
      some { jobQueued with status := .cancelled, updated_at := envHappy.now } := by
  refine ⟨?_, ?_⟩
  · exact (cancel_remote_first envExecFail stMix "jq" jobQueued (by decide)
      (Or.inl (by decide))).2.1 "boom" rfl
  · exact ((cancel_remote_first envHappy stMix "jq" jobQueued (by decide)
      (Or.inl (by decide))).2.2 "request id is psts-42 (1 file(s))" rfl).2

/-- C1 counterexample: `print_cancel_job` on a job already in the
terminal state Completed still transitions it to Cancelled, so a
terminal job is not protected from further transitions. -/
theorem cancel_completed_cx :
    jobDone.status = .completed ∧
    (lookupJob (print_cancel_job envHappy "j2" stDone).2.1.jobs "j2").map (·.status) =
      some .cancelled := by
  decide

/-- C1 amended: neither cancel nor the status-update operation protects
terminal states. Cancel moves any present job — whatever its current
status, terminal ones included — to Cancelled (issuing the remote cancel
only from Queued/Printing), and the status-update operation overwrites
the status of any present job unconditionally. -/
theorem terminal_not_protected (env : PrintEnv) (s : PrintState) (job_id : String)
    (j : PrintJob) (hj : lookupJob s.jobs job_id = some j) :
    (¬ (j.status = .queued ∨ j.status = .printing) →
      (print_cancel_job env job_id s).2.2 = [] ∧
      (print_cancel_job env job_id s).1 = ApiResponse.ok "Job cancelled successfully" ∧
      lookupJob (print_cancel_job env job_id s).2.1.jobs job_id =
        some { j with status := .cancelled, updated_at := env.now }) ∧
    (∀ st err,
      (print_update_job_status env job_id st err s).1 =
        ApiResponse.ok { j with status := st, updated_at := env.now, error := err } ∧
      lookupJob (print_update_job_status env job_id st err s).2.jobs job_id =
        some { j with status := st, updated_at := env.now, error := err }) := by
  constructor
  · intro hin
    simp only [print_cancel_job, hj]
    rw [if_neg hin]
    refine ⟨rfl, rfl, ?_⟩
    rw [jobs_save_if_dirty, jobs_mark_dirty]
    simp [lookupJob_setJob_self, hj]
  · intro st err
    simp only [print_update_job_status, hj]
    constructor
    · trivial
    · rw [jobs_save_if_dirty, jobs_mark_dirty]
      simp [lookupJob_setJob_self, hj]

/-- C5: with a live session whose keep-alive probe fails, the session is
discarded and exactly one reconnection attempt is made with the stored
config; if it succeeds the command then executes normally and the caller
sees no error, and if it fails a connection error telling the caller to
reconnect is returned without executing the command — never a second
attempt. -/
theorem ensure_valid_single_reconnect (env : SSHEnv) (m : MgrState) (h : Nat)
    (c cfg : SSHConfig) (command : String)
    (hs : m.session = some h) (hc : m.config = some c)
    (hk : env.keepaliveOk = false) :
    (ssh_execute_command cfg command env m).2.2.1 = 1 ∧
    (∀ hd, env.connectResult = .ok hd →
      (ssh_execute_command cfg command env m).2.2.2 = [command] ∧
      ∀ out, env.execResult command = .ok out →
        (ssh_execute_command cfg command env m).1 = ApiResponse.ok out) ∧
    (∀ e, env.connectResult = .error e →
      (ssh_execute_command cfg command env m).2.2.2 = [] ∧
      (ssh_execute_command cfg command env m).1 =
        ApiResponse.err ("SSH command failed: " ++ e ++ ". Please reconnect.")) := by
  cases hcr : env.connectResult with
  | ok hd =>
    refine ⟨?_, ?_, ?_⟩
    · cases hout : env.execResult command <;>
        simp [ssh_execute_command, execute_with_persistent_session,
          ensure_session_valid, check_session_health, hs, hc, hk, hcr, hout]
    · intro hd2 _
      constructor
      · cases hout : env.execResult command <;>
          simp [ssh_execute_command, execute_with_persistent_session,
            ensure_session_valid, check_session_health, hs, hc, hk, hcr, hout]
      · intro out hout
        simp [ssh_execute_command, execute_with_persistent_session,
          ensure_session_valid, check_session_health, hs, hc, hk, hcr, hout,
          ApiResponse.ok]
    · intro e he
      cases he
  | error e =>
    refine ⟨?_, ?_, ?_⟩
    · simp [ssh_execute_command, execute_with_persistent_session,
        ensure_session_valid, check_session_health, hs, hc, hk, hcr]
    · intro hd he
      cases he
    · intro e2 he
      cases he
      simp [ssh_execute_command, execute_with_persistent_session,
        ensure_session_valid, check_session_health, hs, hc, hk, hcr,
        ApiResponse.err]

/-- Closed instance of `ensure_valid_single_reconnect`, exercising both
the reconnect-succeeds and the reconnect-fails branch. -/
theorem ensure_valid_single_reconnect_witness :
    ((ssh_execute_command cfgA "whoami" sshEnvReconnectOk mgrLive).2.2.1 = 1 ∧
      (ssh_execute_command cfgA "whoami" sshEnvReconnectOk mgrLive).2.2.2 = ["whoami"] ∧
      (ssh_execute_command cfgA "whoami" sshEnvReconnectOk mgrLive).1 =
        ApiResponse.ok "ran whoami") ∧
    ((ssh_execute_command cfgA "whoami" sshEnvReconnectFail mgrLive).2.2.1 = 1 ∧
      (ssh_execute_command cfgA "whoami" sshEnvReconnectFail mgrLive).1 =
        ApiResponse.err
          "SSH command failed: Connection timeout - no server reachable. Please reconnect.") := by
  have h1 := ensure_valid_single_reconnect sshEnvReconnectOk mgrLive 0 cfgA cfgA
    "whoami" rfl rfl rfl
  have h2 := ensure_valid_single_reconnect sshEnvReconnectFail mgrLive 0 cfgA cfgA
    "whoami" rfl rfl rfl
  refine ⟨⟨h1.1, (h1.2.1 1 rfl).1, (h1.2.1 1 rfl).2 "ran whoami" rfl⟩,
    h2.1, (h2.2.2 "Connection timeout - no server reachable" rfl).2⟩

/-! ## Persistence round trip -/

theorem foldl_insert_fresh (m : JobMap) : ∀ (acc : JobMap),
    (∀ kv ∈ m, lookupJob acc kv.1 = none) →
    (keysOf m).Nodup → (∀ kv ∈ m, (kv.2).id = kv.1) →
    (valuesOf m).foldl (fun a j => insertJob a j.id j) acc = acc ++ m := by
  induction m with
  | nil =>
    intro acc _ _ _
    simp [valuesOf]
  | cons kv rest ih =>
    intro acc hdisj hnd hid
    have hidh : (kv.2).id = kv.1 := hid kv (List.mem_cons_self kv rest)
    have hlk : lookupJob acc (kv.2).id = none := hidh ▸ hdisj kv (List.mem_cons_self kv rest)
    have hstep : insertJob acc (kv.2).id kv.2 = acc ++ [kv] := by
      unfold insertJob
      rw [hlk]
      simp only [Option.isSome_none, Bool.false_eq_true, if_false]
      rw [hidh]
    have hvals : valuesOf (kv :: rest) = kv.2 :: valuesOf rest := rfl
    rw [hvals, List.foldl_cons, hstep]
    rw [keysOf_cons, List.nodup_cons] at hnd
    have hres := ih (acc ++ [kv]) ?_ hnd.2 (fun x hx => hid x (List.mem_cons_of_mem kv hx))
    · rw [hres, List.append_assoc, List.singleton_append]
    · intro x hx
      have hk : x.1 ≠ kv.1 := by
        intro e
        exact hnd.1 (e ▸ List.mem_map.mpr ⟨x, hx, rfl⟩)
      rw [lookupJob_append_right [kv] (hdisj x (List.mem_cons_of_mem kv hx))]
      rw [lookupJob_cons]
      rw [if_neg (fun e => hk e.symm)]
      rfl

/-- C8: for a nonempty well-formed registry with the dirty flag set,
`save_if_dirty` followed by `load` reproduces exactly the same job map:
every id maps to a field-for-field equal record, with none added or
lost. -/
theorem save_then_load_roundtrip (s : PrintState)
    (hwf : WfMap s.jobs) (_hne : s.jobs ≠ []) (hd : s.dirty = true) :
    load_print_history (save_if_dirty s).file = Except.ok s.jobs := by
  unfold save_if_dirty
  rw [if_pos hd]
  unfold load_print_history save_print_history
  dsimp only
  rw [foldl_insert_fresh s.jobs [] (fun kv _ => rfl) hwf.1 hwf.2]
  rw [List.nil_append]

/-- Closed instance of `save_then_load_roundtrip`. -/
theorem save_then_load_roundtrip_witness :
    load_print_history (save_if_dirty stDirty).file = Except.ok stDirty.jobs :=
  save_then_load_roundtrip stDirty (by decide) (by decide) rfl

/-! ## Reconciler: snapshot lemmas -/

theorem activeSnapshot_mem {m : JobMap} {k : String} {j : PrintJob}
    (hwf : WfMap m) (hj : lookupJob m k = some j) (ha : isActive j.status = true) :
    (k, j.printer, j.lpq_job_id) ∈ activeSnapshot m := by
  have hm : (k, j) ∈ m := lookupJob_mem hj
  have hid : j.id = k := hwf.2 _ hm
  have hv : j ∈ valuesOf m := List.mem_map.mpr ⟨(k, j), hm, rfl⟩
  unfold activeSnapshot
  refine List.mem_filterMap.mpr ⟨j, hv, ?_⟩
  rw [if_pos ha, hid]

theorem activeSnapshot_ids {m : JobMap} {x : String × String × Option String}
    (hx : x ∈ activeSnapshot m) :
    ∃ kv ∈ m, (kv.2).id = x.1 ∧ isActive (kv.2).status = true := by
  unfold activeSnapshot at hx
  obtain ⟨j, hj, hfj⟩ := List.mem_filterMap.mp hx
  obtain ⟨kv, hkv, rfl⟩ := List.mem_map.mp hj
  by_cases hA : isActive (kv.2).status = true
  · rw [if_pos hA] at hfj
    cases hfj
    exact ⟨kv, hkv, rfl, hA⟩
  · rw [if_neg hA] at hfj
    cases hfj

theorem activeSnapshot_ids_sublist (m : JobMap)
    (hid : ∀ kv ∈ m, (kv.2).id = kv.1) :
    ((activeSnapshot m).map (·.1)).Sublist (keysOf m) := by
  induction m with
  | nil => simp [activeSnapshot, valuesOf, keysOf]
  | cons kv rest ih =>
    have htail := ih (fun x hx => hid x (List.mem_cons_of_mem kv hx))
    have hhead : (kv.2).id = kv.1 := hid kv (List.mem_cons_self kv rest)
    have hcons : activeSnapshot (kv :: rest) =
        (if isActive (kv.2).status = true
          then some ((kv.2).id, (kv.2).printer, (kv.2).lpq_job_id) else none).toList
          ++ activeSnapshot rest := by
      unfold activeSnapshot valuesOf
      rw [List.map_cons, List.filterMap_cons]
      by_cases hA : isActive (kv.2).status = true
      · rw [if_pos hA]
        rfl
      · rw [if_neg hA]
        rfl
    rw [hcons, keysOf_cons]
    by_cases hA : isActive (kv.2).status = true
    · rw [if_pos hA]
      simp only [Option.toList_some, List.singleton_append, List.map_cons, hhead]
      exact htail.cons₂ kv.1
    · rw [if_neg hA]
      simp only [Option.toList_none, List.nil_append]
      exact htail.cons kv.1

theorem activeSnapshot_ids_nodup {m : JobMap} (hwf : WfMap m) :
    ((activeSnapshot m).map (·.1)).Nodup :=
  (hwf.1).sublist (activeSnapshot_ids_sublist m hwf.2)

theorem not_mem_snapshot_ids {m : JobMap} {k : String} {j : PrintJob}
    (hwf : WfMap m) (hj : lookupJob m k = some j)
    (hin : isActive j.status = false) :
    k ∉ (activeSnapshot m).map (·.1) := by
  intro hk
  obtain ⟨x, hx, hx1⟩ := List.mem_map.mp hk
  obtain ⟨kv, hkv, hkid, hAct⟩ := activeSnapshot_ids hx
  have hkey : kv.1 = k := by rw [← hwf.2 kv hkv, hkid, hx1]
  have hmem : (k, kv.2) ∈ m := by
    have : kv = (k, kv.2) := Prod.ext hkey rfl
    exact this ▸ hkv
  have hlk := mem_lookupJob hwf.1 hmem
  rw [hj] at hlk
  cases hlk
  rw [hAct] at hin
  cases hin

/-! ## Reconciler: grouping lemmas -/

theorem allIdsOf_cons (g : String × List (String × Option String))
    (gs : List (String × List (String × Option String))) :
    allIdsOf (g :: gs) = g.2.map (·.1) ++ allIdsOf gs := rfl

theorem allIdsOf_append (a b : List (String × List (String × Option String))) :
    allIdsOf (a ++ b) = allIdsOf a ++ allIdsOf b := by
  unfold allIdsOf
  rw [List.map_append, List.flatten_append]

theorem allIdsOf_groupInsert (gs : List (String × List (String × Option String)))
    (p : String) (it : String × Option String) :
    (allIdsOf (groupInsert gs p it)).Perm (allIdsOf gs ++ [it.1]) := by
  induction gs with
  | nil => simp [groupInsert, allIdsOf]
  | cons g gs ih =>
    unfold groupInsert
    by_cases hp : g.1 = p
    · rw [if_pos hp, allIdsOf_cons, allIdsOf_cons]
      simp only [List.map_append, List.map_cons, List.map_nil]
      rw [List.append_assoc, List.append_assoc]
      exact List.Perm.append_left _ List.perm_append_comm
    · rw [if_neg hp, allIdsOf_cons, allIdsOf_cons, List.append_assoc]
      exact List.Perm.append_left _ ih

theorem allIdsOf_groupFold (l : List (String × String × Option String)) :
    ∀ acc, (allIdsOf (l.foldl (fun a x => groupInsert a x.2.1 (x.1, x.2.2)) acc)).Perm
      (allIdsOf acc ++ l.map (·.1)) := by
  induction l with
  | nil =>
    intro acc
    simp
  | cons x xs ih =>
    intro acc
    rw [List.foldl_cons, List.map_cons]
    have h1 := ih (groupInsert acc x.2.1 (x.1, x.2.2))
    have h2 := (allIdsOf_groupInsert acc x.2.1 (x.1, x.2.2)).append_right (xs.map (·.1))
    have h3 := h1.trans h2
    rw [List.append_assoc, List.singleton_append] at h3
    exact h3

theorem allIdsOf_groupByPrinter (l : List (String × String × Option String)) :
    (allIdsOf (groupByPrinter l)).Perm (l.map (·.1)) := by
  unfold groupByPrinter
  have h := allIdsOf_groupFold l []
  simpa [allIdsOf] using h

theorem groupInsert_mem_new (gs : List (String × List (String × Option String)))
    (p : String) (it : String × Option String) :
    ∃ g ∈ groupInsert gs p it, g.1 = p ∧ it ∈ g.2 := by
  induction gs with
  | nil => exact ⟨(p, [it]), List.mem_singleton.mpr rfl, rfl, List.mem_singleton.mpr rfl⟩
  | cons g gs ih =>
    unfold groupInsert
    by_cases hp : g.1 = p
    · rw [if_pos hp]
      exact ⟨(g.1, g.2 ++ [it]), List.mem_cons_self _ _, hp,
        List.mem_append_right _ (List.mem_singleton.mpr rfl)⟩
    · rw [if_neg hp]
      obtain ⟨g2, hg2, hg2p, hg2it⟩ := ih
      exact ⟨g2, List.mem_cons_of_mem g hg2, hg2p, hg2it⟩

theorem groupInsert_mem_mono {gs : List (String × List (String × Option String))}
    {p' : String} {it' : String × Option String}
    (h : ∃ g ∈ gs, g.1 = p' ∧ it' ∈ g.2) (p : String) (it : String × Option String) :
    ∃ g ∈ groupInsert gs p it, g.1 = p' ∧ it' ∈ g.2 := by
  induction gs with
  | nil =>
    obtain ⟨g, hg, _, _⟩ := h
    cases hg
  | cons g gs ih =>
    obtain ⟨g0, hg0, hg0p, hg0it⟩ := h
    unfold groupInsert
    by_cases hp : g.1 = p
    · rw [if_pos hp]
      rcases List.mem_cons.mp hg0 with he | ht
      · exact ⟨(g.1, g.2 ++ [it]), List.mem_cons_self _ _, he ▸ hg0p,
          List.mem_append_left _ (he ▸ hg0it)⟩
      · exact ⟨g0, List.mem_cons_of_mem _ ht, hg0p, hg0it⟩
    · rw [if_neg hp]
      rcases List.mem_cons.mp hg0 with he | ht
      · exact ⟨g, List.mem_cons_self _ _, he ▸ hg0p, he ▸ hg0it⟩
      · obtain ⟨g2, hg2, hg2p, hg2it⟩ := ih ⟨g0, ht, hg0p, hg0it⟩
        exact ⟨g2, List.mem_cons_of_mem g hg2, hg2p, hg2it⟩

theorem mem_groupFold {k p : String} {q : Option String}
    (l : List (String × String × Option String)) :
    ∀ acc, ((k, p, q) ∈ l ∨ ∃ g ∈ acc, g.1 = p ∧ (k, q) ∈ g.2) →
    ∃ g ∈ l.foldl (fun a x => groupInsert a x.2.1 (x.1, x.2.2)) acc,
      g.1 = p ∧ (k, q) ∈ g.2 := by
  induction l with
  | nil =>
    intro acc h
    rcases h with h | h
    · cases h
    · exact h
  | cons x xs ih =>
    intro acc h
    rw [List.foldl_cons]
    refine ih _ ?_
    rcases h with h | h
    · rcases List.mem_cons.mp h with he | ht
      · right
        have : x.2.1 = p ∧ (x.1, x.2.2) = (k, q) := by
          cases he
          exact ⟨rfl, rfl⟩
        obtain ⟨hp, hit⟩ := this
        exact hp ▸ hit ▸ groupInsert_mem_new acc x.2.1 (x.1, x.2.2)
      · exact Or.inl ht
    · exact Or.inr (groupInsert_mem_mono h x.2.1 (x.1, x.2.2))

theorem mem_groupByPrinter {k p : String} {q : Option String}
    {l : List (String × String × Option String)} (h : (k, p, q) ∈ l) :
    ∃ g ∈ groupByPrinter l, g.1 = p ∧ (k, q) ∈ g.2 :=
  mem_groupFold l [] (Or.inl h)

/-! ## Reconciler: frame and preservation lemmas -/

theorem processItem_frame (env : PrintEnv) (qo : String) (st : JobMap × List String)
    (item : String × Option String) {k : String} (hne : item.1 ≠ k) :
    lookupJob (processItem env qo st item).1 k = lookupJob st.1 k ∧
    (k ∈ (processItem env qo st item).2 ↔ k ∈ st.2) := by
  have hk : ¬ k = item.1 := fun h => hne h.symm
  unfold processItem
  dsimp only
  split
  · exact ⟨rfl, Iff.rfl⟩
  · split
    · split
      · refine ⟨lookupJob_setJob_ne _ _ _ _ hk, ?_⟩
        simp [List.mem_append, hk]
      · exact ⟨rfl, Iff.rfl⟩
    · exact ⟨rfl, Iff.rfl⟩

theorem processItems_frame (env : PrintEnv) (qo : String) {k : String} :
    ∀ (items : List (String × Option String)) (st : JobMap × List String),
    (∀ it ∈ items, it.1 ≠ k) →
    lookupJob (items.foldl (processItem env qo) st).1 k = lookupJob st.1 k ∧
    (k ∈ (items.foldl (processItem env qo) st).2 ↔ k ∈ st.2) := by
  intro items
  induction items with
  | nil => exact fun st _ => ⟨rfl, Iff.rfl⟩
  | cons it items ih =>
    intro st h
    rw [List.foldl_cons]
    have hstep := processItem_frame env qo st it (h it (List.mem_cons_self it items))
    have hrest := ih (processItem env qo st it)
      (fun x hx => h x (List.mem_cons_of_mem it hx))
    exact ⟨hrest.1.trans hstep.1, hrest.2.trans hstep.2⟩

theorem processGroup_frame (env : PrintEnv) {k : String}
    (g : String × List (String × Option String)) (st : JobMap × List String)
    (h : ∀ it ∈ g.2, it.1 ≠ k) :
    lookupJob (processGroup env st g).1 k = lookupJob st.1 k ∧
    (k ∈ (processGroup env st g).2 ↔ k ∈ st.2) := by
  unfold processGroup
  dsimp only
  split
  · exact processItems_frame env _ g.2 st h
  · exact ⟨rfl, Iff.rfl⟩

theorem processGroups_frame (env : PrintEnv) {k : String} :
    ∀ (gs : List (String × List (String × Option String))) (st : JobMap × List String),
    (∀ g ∈ gs, ∀ it ∈ g.2, it.1 ≠ k) →
    lookupJob (gs.foldl (processGroup env) st).1 k = lookupJob st.1 k ∧
    (k ∈ (gs.foldl (processGroup env) st).2 ↔ k ∈ st.2) := by
  intro gs
  induction gs with
  | nil => exact fun st _ => ⟨rfl, Iff.rfl⟩
  | cons g gs ih =>
    intro st h
    rw [List.foldl_cons]
    have hstep := processGroup_frame env g st (h g (List.mem_cons_self g gs))
    have hrest := ih (processGroup env st g)
      (fun x hx => h x (List.mem_cons_of_mem g hx))
    exact ⟨hrest.1.trans hstep.1, hrest.2.trans hstep.2⟩

theorem wf_setJob {m : JobMap} {k : String} {j : PrintJob}
    (hwf : WfMap m) (hj : lookupJob m k = some j) {j' : PrintJob}
    (hid : j'.id = j.id) : WfMap (setJob m k j') := by
  have hjk : j.id = k := hwf.2 _ (lookupJob_mem hj)
  constructor
  · rw [keysOf_setJob]
    exact hwf.1
  · intro kv hkv
    unfold setJob at hkv
    obtain ⟨kv0, hkv0, hkveq⟩ := List.mem_map.mp hkv
    by_cases hk : kv0.1 = k
    · rw [if_pos hk] at hkveq
      rw [← hkveq]
      rw [hid, hjk, hk]
    · rw [if_neg hk] at hkveq
      rw [← hkveq]
      exact hwf.2 kv0 hkv0

theorem processItem_wf (env : PrintEnv) (qo : String) (st : JobMap × List String)
    (it : String × Option String) (hwf : WfMap st.1) :
    WfMap (processItem env qo st it).1 := by
  unfold processItem
  dsimp only
  split
  · exact hwf
  · split
    · rename_i j hj
      split
      · exact wf_setJob hwf hj rfl
      · exact hwf
    · exact hwf

theorem processItems_wf (env : PrintEnv) (qo : String) :
    ∀ (items : List (String × Option String)) (st : JobMap × List String),
    WfMap st.1 → WfMap ((items.foldl (processItem env qo) st).1) := by
  intro items
  induction items with
  | nil => exact fun st h => h
  | cons it items ih =>
    intro st h
    rw [List.foldl_cons]
    exact ih _ (processItem_wf env qo st it h)

theorem processGroup_wf (env : PrintEnv) (g : String × List (String × Option String))
    (st : JobMap × List String) (hwf : WfMap st.1) :
    WfMap (processGroup env st g).1 := by
  unfold processGroup
  dsimp only
  split
  · exact processItems_wf env _ g.2 st hwf
  · exact hwf

theorem processGroups_wf (env : PrintEnv) :
    ∀ (gs : List (String × List (String × Option String))) (st : JobMap × List String),
    WfMap st.1 → WfMap ((gs.foldl (processGroup env) st).1) := by
  intro gs
  induction gs with
  | nil => exact fun st h => h
  | cons g gs ih =>
    intro st h
    rw [List.foldl_cons]
    exact ih _ (processGroup_wf env g st h)

theorem reconcile_wf (env : PrintEnv) (s : PrintState) (hwf : WfMap s.jobs) :
    WfMap (print_check_active_jobs env s).2.jobs := by
  unfold print_check_active_jobs
  dsimp only
  split
  · exact hwf
  · exact processGroups_wf env (groupByPrinter (activeSnapshot s.jobs)) (s.jobs, []) hwf

/-! ## Reconciler: the decisive step on the tracked job -/

theorem mem_allIdsOf {gs : List (String × List (String × Option String))}
    {g : String × List (String × Option String)} {it : String × Option String}
    (hg : g ∈ gs) (hit : it ∈ g.2) : it.1 ∈ allIdsOf gs := by
  unfold allIdsOf
  exact List.mem_flatten.mpr ⟨g.2.map (·.1), List.mem_map.mpr ⟨g, hg, rfl⟩,
    List.mem_map.mpr ⟨it, hit, rfl⟩⟩

theorem processItem_target (env : PrintEnv) (qo : String) (st : JobMap × List String)
    (k : String) (q : Option String) (j : PrintJob)
    (hlk : lookupJob st.1 k = some j) (ha : isActive j.status = true) :
    processItem env qo st (k, q) =
      if stillInQueue qo q then st
      else (setJob st.1 k (completeJob env.now j), st.2 ++ [k]) := by
  unfold processItem stillInQueue
  cases q with
  | some t =>
    dsimp only
    cases hc : strContains qo t with
    | true => rw [if_pos rfl, if_pos rfl]
    | false =>
      rw [if_neg Bool.false_ne_true, if_neg Bool.false_ne_true, hlk]
      dsimp only
      rw [if_pos ha]
  | none =>
    dsimp only
    rw [if_neg Bool.false_ne_true, if_neg Bool.false_ne_true, hlk]
    dsimp only
    rw [if_pos ha]

theorem processItems_target (env : PrintEnv) (qo : String)
    (pre post : List (String × Option String)) (k : String) (q : Option String)
    (st : JobMap × List String) (j : PrintJob)
    (hpre : ∀ it ∈ pre, it.1 ≠ k) (hpost : ∀ it ∈ post, it.1 ≠ k)
    (hlk : lookupJob st.1 k = some j) (ha : isActive j.status = true)
    (hk2 : k ∉ st.2) :
    lookupJob ((pre ++ (k, q) :: post).foldl (processItem env qo) st).1 k =
      (if stillInQueue qo q then some j else some (completeJob env.now j)) ∧
    (k ∈ ((pre ++ (k, q) :: post).foldl (processItem env qo) st).2 ↔
      stillInQueue qo q = false) := by
  rw [List.foldl_append, List.foldl_cons]
  have hframe1 := processItems_frame env qo pre st hpre
  have hlk1 : lookupJob (pre.foldl (processItem env qo) st).1 k = some j :=
    hframe1.1.trans hlk
  have hk21 : k ∉ (pre.foldl (processItem env qo) st).2 :=
    fun h => hk2 (hframe1.2.mp h)
  rw [processItem_target env qo _ k q j hlk1 ha]
  cases hq : stillInQueue qo q with
  | true =>
    rw [if_pos rfl]
    have hframe2 := processItems_frame env qo post (pre.foldl (processItem env qo) st) hpost
    constructor
    · rw [if_pos rfl]
      exact hframe2.1.trans hlk1
    · rw [hframe2.2]
      simp [hk21]
  | false =>
    rw [if_neg Bool.false_ne_true]
    have hlk2 : lookupJob (setJob (pre.foldl (processItem env qo) st).1 k
        (completeJob env.now j)) k = some (completeJob env.now j) := by
      rw [lookupJob_setJob_self, hlk1]
      rfl
    have hframe2 := processItems_frame env qo post
      (setJob (pre.foldl (processItem env qo) st).1 k (completeJob env.now j),
        (pre.foldl (processItem env qo) st).2 ++ [k]) hpost
    constructor
    · rw [if_neg Bool.false_ne_true]
      exact hframe2.1.trans hlk2
    · rw [hframe2.2]
      simp

/-- The reconciler leaves any job it does not consider (one whose status
is not Queued/Printing) untouched and never returns its id. -/
theorem reconcile_untouched (env : PrintEnv) (s : PrintState) (k : String)
    (j : PrintJob) (hwf : WfMap s.jobs) (hj : lookupJob s.jobs k = some j)
    (hin : isActive j.status = false) :
    lookupJob (print_check_active_jobs env s).2.jobs k = some j ∧
    k ∉ ((print_check_active_jobs env s).1.data.getD []) := by
  have hkid : k ∉ (activeSnapshot s.jobs).map (·.1) :=
    not_mem_snapshot_ids hwf hj hin
  have hgids : ∀ g ∈ groupByPrinter (activeSnapshot s.jobs), ∀ it ∈ g.2, it.1 ≠ k := by
    intro g hg it hit he
    have hmem := mem_allIdsOf hg hit
    rw [he] at hmem
    exact hkid (((allIdsOf_groupByPrinter (activeSnapshot s.jobs)).mem_iff).mp hmem)
  unfold print_check_active_jobs
  dsimp only
  split
  · exact ⟨hj, by simp [ApiResponse.ok]⟩
  · have hframe := processGroups_frame env (groupByPrinter (activeSnapshot s.jobs))
      (s.jobs, []) hgids
    refine ⟨hframe.1.trans hj, ?_⟩
    intro hmem
    rw [ApiResponse.ok] at hmem
    simp only [Option.getD_some] at hmem
    exact (List.not_mem_nil k) (hframe.2.mp hmem)

/-- The reconciler's effect on a considered (Queued/Printing) job whose
printer poll succeeds: the job is completed exactly when its identifier
is missing from the joined listing (or it has no identifier), and its id
is returned exactly in that case. -/
theorem reconcile_active (env : PrintEnv) (s : PrintState) (k : String) (j : PrintJob)
    (L : List String) (hwf : WfMap s.jobs) (hj : lookupJob s.jobs k = some j)
    (ha : isActive j.status = true)
    (hq : ssh_check_printer_queue env j.printer = ApiResponse.ok L) :
    lookupJob (print_check_active_jobs env s).2.jobs k =
      (if stillInQueue (String.intercalate "\n" L) j.lpq_job_id then some j
       else some (completeJob env.now j)) ∧
    (k ∈ ((print_check_active_jobs env s).1.data.getD []) ↔
      stillInQueue (String.intercalate "\n" L) j.lpq_job_id = false) := by
  have hx : (k, j.printer, j.lpq_job_id) ∈ activeSnapshot s.jobs :=
    activeSnapshot_mem hwf hj ha
  obtain ⟨g, hg, hgp, hgit⟩ := mem_groupByPrinter hx
  obtain ⟨G1, G2, hGsplit⟩ := List.append_of_mem hg
  obtain ⟨pre, post, hIsplit⟩ := List.append_of_mem hgit
  have hnds := activeSnapshot_ids_nodup hwf
  have hnda : (allIdsOf (groupByPrinter (activeSnapshot s.jobs))).Nodup :=
    ((allIdsOf_groupByPrinter (activeSnapshot s.jobs)).nodup_iff).mpr hnds
  rw [hGsplit, allIdsOf_append, allIdsOf_cons, hIsplit, List.map_append,
    List.map_cons] at hnda
  rw [List.nodup_append] at hnda
  obtain ⟨_, h2, hd1⟩ := hnda
  rw [List.nodup_append] at h2
  obtain ⟨h3, _, hd2⟩ := h2
  rw [List.nodup_append] at h3
  obtain ⟨_, h6, hd3⟩ := h3
  rw [List.nodup_cons] at h6
  have hkmid : k ∈ pre.map (·.1) ++ k :: post.map (·.1) :=
    List.mem_append_right _ (List.mem_cons_self k _)
  have cond_pre : ∀ it ∈ pre, it.1 ≠ k := by
    intro it hit he
    exact hd3 (he ▸ List.mem_map.mpr ⟨it, hit, rfl⟩) (List.mem_cons_self k _)
  have cond_post : ∀ it ∈ post, it.1 ≠ k := by
    intro it hit he
    exact h6.1 (he ▸ List.mem_map.mpr ⟨it, hit, rfl⟩)
  have cond_G1 : ∀ g1 ∈ G1, ∀ it ∈ g1.2, it.1 ≠ k := by
    intro g1 hg1 it hit he
    exact hd1 (he ▸ mem_allIdsOf hg1 hit) (List.mem_append_left _ hkmid)
  have cond_G2 : ∀ g2 ∈ G2, ∀ it ∈ g2.2, it.1 ≠ k := by
    intro g2 hg2 it hit he
    exact hd2 hkmid (he ▸ mem_allIdsOf hg2 hit)
  unfold print_check_active_jobs
  dsimp only
  split
  · rename_i hEmpty
    rw [List.isEmpty_iff] at hEmpty
    rw [hEmpty] at hx
    cases hx
  · rw [hGsplit, List.foldl_append, List.foldl_cons]
    have hfr1 := processGroups_frame env G1 ((s.jobs, []) : JobMap × List String) cond_G1
    have hlkA : lookupJob (G1.foldl (processGroup env) (s.jobs, [])).1 k = some j :=
      hfr1.1.trans hj
    have hkA : k ∉ (G1.foldl (processGroup env) (s.jobs, [])).2 :=
      fun h => (List.not_mem_nil k) (hfr1.2.mp h)
    have hstep : processGroup env (G1.foldl (processGroup env) (s.jobs, [])) g =
        g.2.foldl (processItem env (String.intercalate "\n" L))
          (G1.foldl (processGroup env) (s.jobs, [])) := by
      unfold processGroup
      rw [hgp, hq]
      rfl
    rw [hstep, hIsplit]
    have htgt := processItems_target env (String.intercalate "\n" L) pre post k
      j.lpq_job_id (G1.foldl (processGroup env) (s.jobs, [])) j cond_pre cond_post
      hlkA ha hkA
    have hfr2 := processGroups_frame env G2
      ((pre ++ (k, j.lpq_job_id) :: post).foldl
        (processItem env (String.intercalate "\n" L))
        (G1.foldl (processGroup env) (s.jobs, []))) cond_G2
    constructor
    · exact hfr2.1.trans htgt.1
    · exact hfr2.2.trans htgt.2

/-- C7: reconcile considers only Queued/Printing jobs (others are left
unchanged and never returned); a considered job with a recorded external
identifier whose printer poll succeeds is transitioned to Completed
exactly when that identifier's text is absent from the joined queue
listing; a considered job with no recorded identifier is transitioned to
Completed on this very poll; and the operation is idempotent — a second
call finds the job Completed, leaves it unchanged and does not return
its id again. -/
theorem reconcile_characterized (env : PrintEnv) (s : PrintState) (k : String)
    (j : PrintJob) (hwf : WfMap s.jobs) (hj : lookupJob s.jobs k = some j) :
    (isActive j.status = false →
      lookupJob (print_check_active_jobs env s).2.jobs k = some j ∧
      k ∉ ((print_check_active_jobs env s).1.data.getD [])) ∧
    (∀ L t, isActive j.status = true → j.lpq_job_id = some t →
      ssh_check_printer_queue env j.printer = ApiResponse.ok L →
      ((strContains (String.intercalate "\n" L) t = true →
        lookupJob (print_check_active_jobs env s).2.jobs k = some j ∧
        k ∉ ((print_check_active_jobs env s).1.data.getD [])) ∧
      (strContains (String.intercalate "\n" L) t = false →
        lookupJob (print_check_active_jobs env s).2.jobs k =
          some (completeJob env.now j) ∧
        k ∈ ((print_check_active_jobs env s).1.data.getD [])))) ∧
    (∀ L, isActive j.status = true → j.lpq_job_id = none →
      ssh_check_printer_queue env j.printer = ApiResponse.ok L →
      lookupJob (print_check_active_jobs env s).2.jobs k =
        some (completeJob env.now j) ∧
      k ∈ ((print_check_active_jobs env s).1.data.getD [])) ∧
    (lookupJob (print_check_active_jobs env s).2.jobs k =
        some (completeJob env.now j) →
      lookupJob (print_check_active_jobs env
          (print_check_active_jobs env s).2).2.jobs k =
        some (completeJob env.now j) ∧
      k ∉ ((print_check_active_jobs env
          (print_check_active_jobs env s).2).1.data.getD [])) := by
  refine ⟨?_, ?_, ?_, ?_⟩
  · intro hin
    exact reconcile_untouched env s k j hwf hj hin
  · intro L t ha hlpq hq
    have h := reconcile_active env s k j L hwf hj ha hq
    rw [hlpq] at h
    constructor
    · intro hc
      have hs : stillInQueue (String.intercalate "\n" L) (some t) = true := hc
      rw [hs] at h
      refine ⟨?_, ?_⟩
      · rw [h.1, if_pos rfl]
      · intro hm
        cases h.2.mp hm
    · intro hc
      have hs : stillInQueue (String.intercalate "\n" L) (some t) = false := hc
      rw [hs] at h
      rw [if_neg Bool.false_ne_true] at h
      exact ⟨h.1, h.2.mpr rfl⟩
  · intro L ha hlpq hq
    have h := reconcile_active env s k j L hwf hj ha hq
    rw [hlpq] at h
    have hs : stillInQueue (String.intercalate "\n" L) none = false := rfl
    rw [hs, if_neg Bool.false_ne_true] at h
    exact ⟨h.1, h.2.mpr rfl⟩
  · intro hdone
    exact reconcile_untouched env (print_check_active_jobs env s).2 k
      (completeJob env.now j) (reconcile_wf env s hwf) hdone rfl

/-- Closed instance of `reconcile_characterized`, exercising the
untouched, identifier-present, identifier-absent, no-identifier and
idempotence branches. -/
theorem reconcile_characterized_witness :
    (lookupJob (print_check_active_jobs envQueueHit stMix).2.jobs "j1" =
        some jobPending ∧
      "j1" ∉ ((print_check_active_jobs envQueueHit stMix).1.data.getD [])) ∧
    (lookupJob (print_check_active_jobs envQueueHit stMix).2.jobs "jq" =
        some jobQueued ∧
      "jq" ∉ ((print_check_active_jobs envQueueHit stMix).1.data.getD [])) ∧
    (lookupJob (print_check_active_jobs envQueueMiss stMix).2.jobs "jq" =
        some (completeJob 5 jobQueued) ∧
      "jq" ∈ ((print_check_active_jobs envQueueMiss stMix).1.data.getD [])) ∧
    (lookupJob (print_check_active_jobs envQueueHit stMix).2.jobs "jr" =
        some (completeJob 5 jobPrinting) ∧
      "jr" ∈ ((print_check_active_jobs envQueueHit stMix).1.data.getD [])) ∧
    (lookupJob (print_check_active_jobs envQueueMiss
          (print_check_active_jobs envQueueMiss stMix).2).2.jobs "jq" =
        some (completeJob 5 jobQueued) ∧
      "jq" ∉ ((print_check_active_jobs envQueueMiss
          (print_check_active_jobs envQueueMiss stMix).2).1.data.getD [])) := by
  have hA := reconcile_characterized envQueueHit stMix "j1" jobPending
    (by decide) (by decide)
  have hB := reconcile_characterized envQueueHit stMix "jq" jobQueued
    (by decide) (by decide)
  have hC := reconcile_characterized envQueueMiss stMix "jq" jobQueued
    (by decide) (by decide)
  have hD := reconcile_characterized envQueueHit stMix "jr" jobPrinting
    (by decide) (by decide)
  refine ⟨hA.1 (by decide), ?_, ?_, ?_, ?_⟩
  · exact (hB.2.1 ["1st u psts-42 f.pdf"] "psts-42" (by decide) rfl
      (by decide)).1 (by decide)
  · exact (hC.2.1 ["1st u 7 f.pdf"] "psts-42" (by decide) rfl
      (by decide)).2 (by decide)
  · exact hD.2.2.1 ["1st u psts-42 f.pdf"] (by decide) rfl (by decide)
  · exact hC.2.2.2 (((hC.2.1 ["1st u 7 f.pdf"] "psts-42" (by decide) rfl
      (by decide)).2 (by decide)).1)

/-- Closed instance of `terminal_not_protected` at a Completed job. -/
theorem terminal_not_protected_witness :
    ((print_cancel_job envHappy "j2" stDone).2.2 = [] ∧
      (print_cancel_job envHappy "j2" stDone).1 = ApiResponse.ok "Job cancelled successfully" ∧
      lookupJob (print_cancel_job envHappy "j2" stDone).2.1.jobs "j2" =
        some { jobDone with status := .cancelled, updated_at := envHappy.now }) ∧
    lookupJob (print_update_job_status envHappy "j2" .pending none stDone).2.jobs "j2" =
      some { jobDone with status := .pending, updated_at := envHappy.now, error := none } := by
  have h := terminal_not_protected envHappy stDone "j2" jobDone (by decide)
  exact ⟨h.1 (by decide), (h.2 .pending none).2⟩

end PrintSoC
